import Mathlib

/-!
Shallow embedding of the 2D Solar System N-body simulator
(modules `dynamics.py`, `integration.py`, `planets.py`, `run_simulation.py`).

Real-valued quantities are modelled over `ℝ`; 2D numpy vectors of shape (2,)
become `ℝ × ℝ`, arrays of shape (N, 2) become `List (ℝ × ℝ)`, and arrays of
shape (N,) become `List ℝ`.  Elementwise numpy arithmetic is spelled out
componentwise.  Fallible code (a Python `raise`, or an out-of-range numpy
index) is modelled with `Except SimError`; the payload of the singularity
error carries the offending distance and the threshold, mirroring the data
interpolated into the Python error message.
-/

/-- Errors the embedded code can signal: the softening-singularity
`ValueError` raised by `gravitational_force` (carrying the offending distance
and the threshold `epsilon`), a numpy `IndexError` from an out-of-range
trajectory-recording index, and the `ValueError` for an unknown integration
method name in `run_simulation`. -/
inductive SimError where
  | distTooSmall (dist eps : ℝ)
  | indexError
  | unknownMethod

/-- Universal gravitational constant `G = 6.67430e-11` from `dynamics.py`. -/
noncomputable def G : ℝ := 6.67430e-11

/-- Softening length `epsilon = 1e-6` from `dynamics.py`. -/
noncomputable def epsilon : ℝ := 1e-6

/-- The numpy `np.linalg.norm` of a 2D vector: `sqrt (x² + y²)`. -/
noncomputable def norm2 (v : ℝ × ℝ) : ℝ := Real.sqrt (v.1 ^ 2 + v.2 ^ 2)

/-- Elementwise sum of two 2D vectors (numpy `u + v`). -/
def vadd (u v : ℝ × ℝ) : ℝ × ℝ := (u.1 + v.1, u.2 + v.2)

/-- Elementwise product of a 2D vector with a scalar on the right
(numpy `u * c`). -/
def vmuls (u : ℝ × ℝ) (c : ℝ) : ℝ × ℝ := (u.1 * c, u.2 * c)

/-- Elementwise product of a scalar with a 2D vector (numpy `c * u`). -/
def smulv (c : ℝ) (u : ℝ × ℝ) : ℝ × ℝ := (c * u.1, c * u.2)

/-- Elementwise quotient of a 2D vector by a scalar (numpy `u / c`). -/
noncomputable def vdivs (u : ℝ × ℝ) (c : ℝ) : ℝ × ℝ := (u.1 / c, u.2 / c)

/-- The force vector computed on the non-error path of
`gravitational_force` in `dynamics.py`:
`force_mag = G*m1*m2/dist**2` and `force_vec = force_mag * diff / dist`. -/
noncomputable def force_value (r1 r2 : ℝ × ℝ) (m1 m2 : ℝ) : ℝ × ℝ :=
  vdivs (smulv (G * m1 * m2 / norm2 (r2 - r1) ^ 2) (r2 - r1)) (norm2 (r2 - r1))

/-- Function `gravitational_force(r1, r2, m1, m2)` from `dynamics.py`: raises
`ValueError` when `dist < epsilon` (the error carries the offending distance
and the threshold), otherwise returns the force on body 1. -/
noncomputable def gravitational_force (r1 r2 : ℝ × ℝ) (m1 m2 : ℝ) :
    Except SimError (ℝ × ℝ) :=
  if norm2 (r2 - r1) < epsilon then
    .error (.distTooSmall (norm2 (r2 - r1)) epsilon)
  else .ok (force_value r1 r2 m1 m2)

/-- Body of the inner `j` loop of `compute_accelerations`:
`if i != j: acc[i] += gravitational_force(positions[i], positions[j],
masses[i], masses[j]) / masses[i]`. -/
noncomputable def acc_body (positions : List (ℝ × ℝ)) (masses : List ℝ)
    (i : ℕ) (acc : ℝ × ℝ) (j : ℕ) : Except SimError (ℝ × ℝ) :=
  if i ≠ j then do
    let f ← gravitational_force (positions.getD i 0) (positions.getD j 0)
      (masses.getD i 0) (masses.getD j 0)
    pure (vadd acc (vdivs f (masses.getD i 0)))
  else pure acc

/-- Function `compute_accelerations(positions, masses, G=G)` from `dynamics.py`:
the nested `for i / for j` accumulation.  The `Gp` parameter mirrors the
Python keyword argument `G=G`; like the source, the body never uses it
(`gravitational_force` reads the module-level constant `G`). -/
noncomputable def compute_accelerations (positions : List (ℝ × ℝ))
    (masses : List ℝ) (Gp : ℝ := G) : Except SimError (List (ℝ × ℝ)) :=
  let N := positions.length
  (List.range N).mapM fun i =>
    (List.range N).foldlM (acc_body positions masses i) ((0 : ℝ), (0 : ℝ))

/-- One term of the pairwise acceleration sum: the successful value of
`gravitational_force(positions[i], positions[j], masses[i], masses[j])`
divided by `masses[i]`. -/
noncomputable def acc_term (positions : List (ℝ × ℝ)) (masses : List ℝ)
    (i j : ℕ) : ℝ × ℝ :=
  vdivs (force_value (positions.getD i 0) (positions.getD j 0)
    (masses.getD i 0) (masses.getD j 0)) (masses.getD i 0)

/-- Function `euler_step` from `integration.py`: velocity is updated first, and the
position update uses the updated velocity (semi-implicit Euler). -/
noncomputable def euler_step (positions velocities : List (ℝ × ℝ))
    (masses : List ℝ) (dt Gp : ℝ) :
    Except SimError (List (ℝ × ℝ) × List (ℝ × ℝ)) := do
  let acc ← compute_accelerations positions masses Gp
  let new_velocities := List.zipWith (fun v a => vadd v (vmuls a dt)) velocities acc
  let new_positions := List.zipWith (fun x v => vadd x (vmuls v dt)) positions new_velocities
  return (new_positions, new_velocities)

/-- Function `rk4_step` from `integration.py`: the classical four-stage Runge-Kutta
step, translated line by line (`a1`/`k1v`/`k1x` through `k4`, then the
`(k1 + 2 k2 + 2 k3 + k4)/6` combinations, with numpy's left-associated
elementwise sums). -/
noncomputable def rk4_step (positions velocities : List (ℝ × ℝ))
    (masses : List ℝ) (dt Gp : ℝ) :
    Except SimError (List (ℝ × ℝ) × List (ℝ × ℝ)) := do
  let a1 ← compute_accelerations positions masses Gp
  let k1v := a1.map (fun a => vmuls a dt)
  let k1x := velocities.map (fun v => vmuls v dt)
  let a2 ← compute_accelerations
    (List.zipWith (fun x k => vadd x (smulv 0.5 k)) positions k1x) masses Gp
  let k2v := a2.map (fun a => vmuls a dt)
  let k2x := List.zipWith (fun v k => vmuls (vadd v (smulv 0.5 k)) dt) velocities k1v
  let a3 ← compute_accelerations
    (List.zipWith (fun x k => vadd x (smulv 0.5 k)) positions k2x) masses Gp
  let k3v := a3.map (fun a => vmuls a dt)
  let k3x := List.zipWith (fun v k => vmuls (vadd v (smulv 0.5 k)) dt) velocities k2v
  let a4 ← compute_accelerations
    (List.zipWith (fun x k => vadd x k) positions k3x) masses Gp
  let k4v := a4.map (fun a => vmuls a dt)
  let k4x := List.zipWith (fun v k => vmuls (vadd v k) dt) velocities k3v
  let new_positions := List.zipWith (fun x s => vadd x (vdivs s 6)) positions
    (List.zipWith (fun a b => vadd a b)
      (List.zipWith (fun a b => vadd a b)
        (List.zipWith (fun a b => vadd a b) k1x (k2x.map (fun k => smulv 2 k)))
        (k3x.map (fun k => smulv 2 k)))
      k4x)
  let new_velocities := List.zipWith (fun v s => vadd v (vdivs s 6)) velocities
    (List.zipWith (fun a b => vadd a b)
      (List.zipWith (fun a b => vadd a b)
        (List.zipWith (fun a b => vadd a b) k1v (k2v.map (fun k => smulv 2 k)))
        (k3v.map (fun k => smulv 2 k)))
      k4v)
  return (new_positions, new_velocities)

/-- The RK4 step exactly as the specification words it (stages
`k1x = v·dt, k1v = a(x)·dt; k2x = (v+0.5·k1v)·dt, k2v = a(x+0.5·k1x)·dt;`
etc., combined as `x + (k1x+2k2x+2k3x+k4x)/6` and
`v + (k1v+2k2v+2k3v+k4v)/6`), written from the spec text for comparison
with `rk4_step`. -/
noncomputable def rk4_step_spec (positions velocities : List (ℝ × ℝ))
    (masses : List ℝ) (dt Gp : ℝ) :
    Except SimError (List (ℝ × ℝ) × List (ℝ × ℝ)) := do
  let a1 ← compute_accelerations positions masses Gp
  let k1x := velocities.map (fun v => vmuls v dt)
  let k1v := a1.map (fun a => vmuls a dt)
  let a2 ← compute_accelerations
    (List.zipWith (fun x k => vadd x (smulv 0.5 k)) positions k1x) masses Gp
  let k2x := List.zipWith (fun v k => vmuls (vadd v (smulv 0.5 k)) dt) velocities k1v
  let k2v := a2.map (fun a => vmuls a dt)
  let a3 ← compute_accelerations
    (List.zipWith (fun x k => vadd x (smulv 0.5 k)) positions k2x) masses Gp
  let k3x := List.zipWith (fun v k => vmuls (vadd v (smulv 0.5 k)) dt) velocities k2v
  let k3v := a3.map (fun a => vmuls a dt)
  let a4 ← compute_accelerations
    (List.zipWith (fun x k => vadd x k) positions k3x) masses Gp
  let k4x := List.zipWith (fun v k => vmuls (vadd v k) dt) velocities k3v
  let k4v := a4.map (fun a => vmuls a dt)
  let new_positions := List.zipWith (fun x s => vadd x (vdivs s 6)) positions
    (List.zipWith (fun a b => vadd a b)
      (List.zipWith (fun a b => vadd a b)
        (List.zipWith (fun a b => vadd a b) k1x (k2x.map (fun k => smulv 2 k)))
        (k3x.map (fun k => smulv 2 k)))
      k4x)
  let new_velocities := List.zipWith (fun v s => vadd v (vdivs s 6)) velocities
    (List.zipWith (fun a b => vadd a b)
      (List.zipWith (fun a b => vadd a b)
        (List.zipWith (fun a b => vadd a b) k1v (k2v.map (fun k => smulv 2 k)))
        (k3v.map (fun k => smulv 2 k)))
      k4v)
  return (new_positions, new_velocities)

/-- One entry of the `PLANETS` table in `planets.py`. -/
structure Planet where
  name : String
  mass : ℝ
  r : ℝ
  v : ℝ

/-- The `PLANETS` catalog from `planets.py` (9 entries). -/
noncomputable def PLANETS : List Planet :=
  [⟨"Sun", 1.989e30, 0, 0⟩,
   ⟨"Mercury", 3.285e23, 5.79e10, 47400⟩,
   ⟨"Venus", 4.867e24, 1.082e11, 35000⟩,
   ⟨"Earth", 5.972e24, 1.496e11, 29780⟩,
   ⟨"Mars", 6.39e23, 2.279e11, 24100⟩,
   ⟨"Jupiter", 1.898e27, 7.785e11, 13070⟩,
   ⟨"Saturn", 5.683e26, 1.433e12, 9680⟩,
   ⟨"Uranus", 8.681e25, 2.877e12, 6800⟩,
   ⟨"Neptune", 1.024e26, 4.503e12, 5430⟩]

/-- Function `get_planets(nplanets)` from `planets.py`: truncates the request to the
catalog size, takes the prefix, and builds names, masses, positions on the
x-axis at distance `r`, and velocities along +y of magnitude `v`. -/
noncomputable def get_planets (nplanets : ℕ) :
    List String × List ℝ × List (ℝ × ℝ) × List (ℝ × ℝ) :=
  let n := min nplanets PLANETS.length
  let subset := PLANETS.take n
  (subset.map (fun p => p.name),
   subset.map (fun p => p.mass),
   subset.map (fun p => (p.r, (0 : ℝ))),
   subset.map (fun p => ((0 : ℝ), p.v)))

/-- Masses array returned by `get_planets`. -/
noncomputable def init_masses (nplanets : ℕ) : List ℝ := (get_planets nplanets).2.1

/-- Initial positions array returned by `get_planets`. -/
noncomputable def init_positions (nplanets : ℕ) : List (ℝ × ℝ) :=
  (get_planets nplanets).2.2.1

/-- Initial velocities array returned by `get_planets`. -/
noncomputable def init_velocities (nplanets : ℕ) : List (ℝ × ℝ) :=
  (get_planets nplanets).2.2.2

/-- The center-of-gravity expression from `run_simulation.py`:
`np.sum(masses[:, None] * positions, axis=0) / np.sum(masses)`. -/
noncomputable def center_of_gravity (masses : List ℝ)
    (positions : List (ℝ × ℝ)) : ℝ × ℝ :=
  (((masses.zip positions).map fun mp => mp.1 * mp.2.1).sum / masses.sum,
   ((masses.zip positions).map fun mp => mp.1 * mp.2.2).sum / masses.sum)

/-- The recording loop `for i in range(nplanets): trajectories[i][row] =
positions[i]` from `run_simulation.py`, by recursion on the number of
processed indices: the call at `n + 1` first runs iterations `0..n-1` and
then performs iteration `i = n`, matching the loop's ascending order and its
first-failure behavior.  Reading `positions[i]` past the end of the array is
a numpy `IndexError`; writing row `row` of `trajectories[i]` is modelled
with `List.set`. -/
def record_row (traj : List (List (ℝ × ℝ))) (row : ℕ)
    (positions : List (ℝ × ℝ)) : ℕ → Except SimError (List (List (ℝ × ℝ)))
  | 0 => .ok traj
  | n + 1 =>
    (record_row traj row positions n).bind fun t1 =>
      match positions.get? n with
      | none => .error .indexError
      | some p => .ok (t1.set n ((t1.getD n []).set row p))

/-- The main time loop of `run_simulation.py` (`for step in range(1,
steps+1)`): advance the state with the chosen integrator, record the new
positions at index `step`, and optionally record the center of gravity.
The first argument counts the remaining iterations; `step` is the index of
the next row to write. -/
noncomputable def sim_loop
    (step_func : List (ℝ × ℝ) → List (ℝ × ℝ) → List ℝ → ℝ → ℝ →
      Except SimError (List (ℝ × ℝ) × List (ℝ × ℝ)))
    (masses : List ℝ) (dt Gp : ℝ) (nplanets : ℕ) (include_cog : Bool) :
    ℕ → ℕ → List (ℝ × ℝ) → List (ℝ × ℝ) → List (List (ℝ × ℝ)) →
    List (ℝ × ℝ) →
    Except SimError
      (List (List (ℝ × ℝ)) × List (ℝ × ℝ) × (List (ℝ × ℝ) × List (ℝ × ℝ)))
  | 0, _step, positions, velocities, traj, cog =>
      .ok (traj, cog, (positions, velocities))
  | k + 1, step, positions, velocities, traj, cog =>
      (step_func positions velocities masses dt Gp).bind fun st =>
        (record_row traj step st.1 nplanets).bind fun traj2 =>
          sim_loop step_func masses dt Gp nplanets include_cog k (step + 1)
            st.1 st.2 traj2
            (if include_cog then cog.set step (center_of_gravity masses st.1)
             else cog)

/-- Iteration: `s` successive applications of the integrator to the evolving state,
threading the error monad exactly as the simulation loop does. -/
noncomputable def iterate_step
    (step_func : List (ℝ × ℝ) → List (ℝ × ℝ) → List ℝ → ℝ → ℝ →
      Except SimError (List (ℝ × ℝ) × List (ℝ × ℝ)))
    (masses : List ℝ) (dt Gp : ℝ) :
    ℕ → List (ℝ × ℝ) → List (ℝ × ℝ) →
    Except SimError (List (ℝ × ℝ) × List (ℝ × ℝ))
  | 0, positions, velocities => .ok (positions, velocities)
  | k + 1, positions, velocities =>
      (step_func positions velocities masses dt Gp).bind fun st =>
        iterate_step step_func masses dt Gp k st.1 st.2

/-- Function `run_simulation` from `run_simulation.py`, up to (and excluding) the
plotting calls: initialize the system from `get_planets`, allocate one
`(steps+1)`-row trajectory buffer per requested planet, record step 0,
optionally allocate and initialize the center-of-gravity buffer, select the
integrator (rejecting unknown method names), and run the time loop.
Returns the trajectory buffers and, when `include_cog` is set, the
center-of-gravity buffer. -/
noncomputable def run_simulation (nplanets steps : ℕ) (dt : ℝ)
    (method : String) (include_cog : Bool) :
    Except SimError (List (List (ℝ × ℝ)) × Option (List (ℝ × ℝ))) :=
  (record_row
      (List.replicate nplanets (List.replicate (steps + 1) ((0 : ℝ), (0 : ℝ))))
      0 (init_positions nplanets) nplanets).bind fun traj1 =>
    (if method = "euler" then Except.ok euler_step
     else if method = "rk4" then Except.ok rk4_step
     else Except.error SimError.unknownMethod).bind fun step_func =>
      (sim_loop step_func (init_masses nplanets) dt G nplanets include_cog
          steps 1 (init_positions nplanets) (init_velocities nplanets) traj1
          (if include_cog then
            (List.replicate (steps + 1) ((0 : ℝ), (0 : ℝ))).set 0
              (center_of_gravity (init_masses nplanets) (init_positions nplanets))
           else [])).bind fun res =>
        Except.ok (res.1, if include_cog then some res.2.1 else none)

/-! ### Basic facts about the constants and the norm -/

theorem epsilon_pos : (0 : ℝ) < epsilon := by
  unfold epsilon
  norm_num

theorem norm2_nonneg (v : ℝ × ℝ) : 0 ≤ norm2 v := Real.sqrt_nonneg _

theorem norm2_neg (v : ℝ × ℝ) : norm2 (-v) = norm2 v := by
  unfold norm2
  simp [neg_sq]

theorem norm2_sub_comm (a b : ℝ × ℝ) : norm2 (a - b) = norm2 (b - a) := by
  rw [← neg_sub b a, norm2_neg]

theorem norm2_unit : norm2 (((1 : ℝ), (0 : ℝ)) - ((0 : ℝ), (0 : ℝ))) = 1 := by
  unfold norm2
  norm_num

theorem norm2_zero_vec : norm2 (((0 : ℝ), (0 : ℝ)) - ((0 : ℝ), (0 : ℝ))) = 0 := by
  unfold norm2
  norm_num

theorem gravitational_force_ok (r1 r2 : ℝ × ℝ) (m1 m2 : ℝ)
    (h : epsilon ≤ norm2 (r2 - r1)) :
    gravitational_force r1 r2 m1 m2 = .ok (force_value r1 r2 m1 m2) := by
  unfold gravitational_force
  rw [if_neg (not_lt.mpr h)]

/-! ### Claim theorems -/

/-- Claim C1: for positions at distance at least `epsilon`,
`gravitational_force` returns the vector `G·m1·m2·(r2-r1)/|r2-r1|³`,
i.e. magnitude `G·m1·m2/r²` directed from body 1 toward body 2, with
`G = 6.67430e-11 = 66743/10¹⁵`. -/
theorem gravitational_force_formula (r1 r2 : ℝ × ℝ) (m1 m2 : ℝ)
    (h : epsilon ≤ norm2 (r2 - r1)) :
    gravitational_force r1 r2 m1 m2 =
      .ok (G * m1 * m2 * (r2 - r1).1 / norm2 (r2 - r1) ^ 3,
           G * m1 * m2 * (r2 - r1).2 / norm2 (r2 - r1) ^ 3) ∧
    G = 66743 / 10 ^ 15 := by
  constructor
  · rw [gravitational_force_ok r1 r2 m1 m2 h]
    unfold force_value vdivs smulv
    simp only [Except.ok.injEq, Prod.mk.injEq]
    constructor
    · ring
    · ring
  · unfold G
    norm_num

/-- Witness for C1 at `r1 = (0,0)`, `r2 = (1,0)`, `m1 = 2`, `m2 = 3`. -/
theorem gravitational_force_formula_witness :
    epsilon ≤ norm2 (((1 : ℝ), (0 : ℝ)) - ((0 : ℝ), (0 : ℝ))) ∧
    (gravitational_force ((0 : ℝ), (0 : ℝ)) ((1 : ℝ), (0 : ℝ)) 2 3 =
      .ok (G * 2 * 3 * (((1 : ℝ), (0 : ℝ)) - ((0 : ℝ), (0 : ℝ))).1 /
             norm2 (((1 : ℝ), (0 : ℝ)) - ((0 : ℝ), (0 : ℝ))) ^ 3,
           G * 2 * 3 * (((1 : ℝ), (0 : ℝ)) - ((0 : ℝ), (0 : ℝ))).2 /
             norm2 (((1 : ℝ), (0 : ℝ)) - ((0 : ℝ), (0 : ℝ))) ^ 3) ∧
      G = 66743 / 10 ^ 15) := by
  have h : epsilon ≤ norm2 (((1 : ℝ), (0 : ℝ)) - ((0 : ℝ), (0 : ℝ))) := by
    rw [norm2_unit]
    unfold epsilon
    norm_num
  exact ⟨h, gravitational_force_formula ((0 : ℝ), (0 : ℝ)) ((1 : ℝ), (0 : ℝ)) 2 3 h⟩

/-- Claim C2: `gravitational_force` fails exactly when the distance is below
`epsilon`; the error carries the offending distance and the threshold, and
for any distance at least `epsilon` the call returns a value. -/
theorem gravitational_force_singularity (r1 r2 : ℝ × ℝ) (m1 m2 : ℝ) :
    (norm2 (r2 - r1) < epsilon →
      gravitational_force r1 r2 m1 m2 =
        .error (.distTooSmall (norm2 (r2 - r1)) epsilon)) ∧
    (epsilon ≤ norm2 (r2 - r1) →
      gravitational_force r1 r2 m1 m2 = .ok (force_value r1 r2 m1 m2)) := by
  constructor
  · intro h
    unfold gravitational_force
    rw [if_pos h]
  · intro h
    exact gravitational_force_ok r1 r2 m1 m2 h

/-- Witness for C2: coincident bodies raise the singularity error, separated
bodies return a force value. -/
theorem gravitational_force_singularity_witness :
    gravitational_force ((0 : ℝ), (0 : ℝ)) ((0 : ℝ), (0 : ℝ)) 1 1 =
      .error (.distTooSmall
        (norm2 (((0 : ℝ), (0 : ℝ)) - ((0 : ℝ), (0 : ℝ)))) epsilon) ∧
    gravitational_force ((0 : ℝ), (0 : ℝ)) ((1 : ℝ), (0 : ℝ)) 1 1 =
      .ok (force_value ((0 : ℝ), (0 : ℝ)) ((1 : ℝ), (0 : ℝ)) 1 1) := by
  have h0 : norm2 (((0 : ℝ), (0 : ℝ)) - ((0 : ℝ), (0 : ℝ))) < epsilon := by
    rw [norm2_zero_vec]
    exact epsilon_pos
  have h1 : epsilon ≤ norm2 (((1 : ℝ), (0 : ℝ)) - ((0 : ℝ), (0 : ℝ))) := by
    rw [norm2_unit]
    unfold epsilon
    norm_num
  exact ⟨(gravitational_force_singularity ((0 : ℝ), (0 : ℝ)) ((0 : ℝ), (0 : ℝ)) 1 1).1 h0,
         (gravitational_force_singularity ((0 : ℝ), (0 : ℝ)) ((1 : ℝ), (0 : ℝ)) 1 1).2 h1⟩

/-- Claim C5: `rk4_step` computes exactly the four classical Runge-Kutta
stages and combinations as the specification states them: it agrees with
`rk4_step_spec`, the stage-by-stage transcription of the spec text, on every
input. -/
theorem rk4_step_classical_stages (positions velocities : List (ℝ × ℝ))
    (masses : List ℝ) (dt Gp : ℝ) :
    rk4_step positions velocities masses dt Gp =
      rk4_step_spec positions velocities masses dt Gp := rfl

/-- Claim C7: the `G` parameter of `compute_accelerations` (and hence the `G`
argument threaded through `euler_step` and `rk4_step`) has no effect on the
result, because `gravitational_force` reads the module-level constant. -/
theorem compute_accelerations_G_irrelevant (positions velocities : List (ℝ × ℝ))
    (masses : List ℝ) (dt g1 g2 : ℝ) :
    compute_accelerations positions masses g1 =
      compute_accelerations positions masses g2 ∧
    euler_step positions velocities masses dt g1 =
      euler_step positions velocities masses dt g2 ∧
    rk4_step positions velocities masses dt g1 =
      rk4_step positions velocities masses dt g2 :=
  ⟨rfl, rfl, rfl⟩

/-- Claim C9: requesting more planets than the 9-entry catalog silently
truncates: the result equals `get_planets 9`, and all four returned
components have length 9. -/
theorem get_planets_truncates (n : ℕ) (h : 9 < n) :
    get_planets n = get_planets 9 ∧
    (get_planets n).1.length = 9 ∧
    (get_planets n).2.1.length = 9 ∧
    (get_planets n).2.2.1.length = 9 ∧
    (get_planets n).2.2.2.length = 9 := by
  have hlen : PLANETS.length = 9 := rfl
  have hmin : min n PLANETS.length = min 9 PLANETS.length := by
    rw [hlen]
    omega
  have heq : get_planets n = get_planets 9 := by
    unfold get_planets
    rw [hmin]
  refine ⟨heq, ?_, ?_, ?_, ?_⟩ <;> rw [heq] <;> rfl

/-- Witness for C9 at `n = 10`. -/
theorem get_planets_truncates_witness :
    get_planets 10 = get_planets 9 ∧
    (get_planets 10).1.length = 9 ∧
    (get_planets 10).2.1.length = 9 ∧
    (get_planets 10).2.2.1.length = 9 ∧
    (get_planets 10).2.2.2.length = 9 :=
  get_planets_truncates 10 (by norm_num)

/-! ### Machinery for the pairwise-sum characterisation -/

theorem zero_pair : ((0 : ℝ), (0 : ℝ)) = (0 : ℝ × ℝ) := rfl

theorem vadd_is_add (u v : ℝ × ℝ) : vadd u v = u + v := rfl

theorem mapM_ok_of_forall {α β : Type} (f : α → Except SimError β) (g : α → β) :
    ∀ l : List α, (∀ a ∈ l, f a = .ok (g a)) → l.mapM f = .ok (l.map g) := by
  intro l
  induction l with
  | nil => intro _; rfl
  | cons a t ih =>
    intro h
    rw [List.mapM_cons, h a (List.mem_cons_self a t),
      ih (fun b hb => h b (List.mem_cons_of_mem a hb))]
    rfl

theorem acc_row_foldlM (positions : List (ℝ × ℝ)) (masses : List ℝ) (i : ℕ) :
    ∀ (L : List ℕ) (acc : ℝ × ℝ),
      (∀ j ∈ L, j ≠ i →
        epsilon ≤ norm2 (positions.getD j 0 - positions.getD i 0)) →
      L.foldlM (acc_body positions masses i) acc =
        .ok (acc + (L.map fun j =>
          if j = i then 0 else acc_term positions masses i j).sum) := by
  intro L
  induction L with
  | nil =>
    intro acc _
    simp
    rfl
  | cons j t ih =>
    intro acc h
    rw [List.foldlM_cons]
    by_cases hj : j = i
    · have hbody : acc_body positions masses i acc j = pure acc := by
        unfold acc_body
        rw [if_neg]
        simp [hj]
      rw [hbody]
      have := ih acc (fun b hb hbne => h b (List.mem_cons_of_mem j hb) hbne)
      simp only [pure, Except.pure] at *
      rw [show (Except.ok acc : Except SimError (ℝ × ℝ)) >>= _ =
        t.foldlM (acc_body positions masses i) acc from rfl, this]
      simp [hj]
    · have hsep := h j (List.mem_cons_self j t) hj
      have hbody : acc_body positions masses i acc j =
          .ok (vadd acc (acc_term positions masses i j)) := by
        unfold acc_body
        rw [if_pos (fun hij => hj hij.symm)]
        rw [show (do
          let f ← gravitational_force (positions.getD i 0) (positions.getD j 0)
            (masses.getD i 0) (masses.getD j 0)
          pure (vadd acc (vdivs f (masses.getD i 0))) :
            Except SimError (ℝ × ℝ)) =
          (gravitational_force (positions.getD i 0) (positions.getD j 0)
            (masses.getD i 0) (masses.getD j 0)).bind
            (fun f => .ok (vadd acc (vdivs f (masses.getD i 0)))) from rfl]
        rw [gravitational_force_ok _ _ _ _ hsep]
        rfl
      rw [hbody]
      rw [show (Except.ok (vadd acc (acc_term positions masses i j)) :
          Except SimError (ℝ × ℝ)) >>= _ =
        t.foldlM (acc_body positions masses i)
          (vadd acc (acc_term positions masses i j)) from rfl]
      rw [ih _ (fun b hb hbne => h b (List.mem_cons_of_mem j hb) hbne)]
      simp only [List.map_cons, List.sum_cons, if_neg hj, vadd_is_add]
      rw [add_assoc]

theorem sum_map_range (f : ℕ → ℝ × ℝ) :
    ∀ n : ℕ, ((List.range n).map f).sum = ∑ j in Finset.range n, f j := by
  intro n
  induction n with
  | zero => simp
  | succ m ih =>
    rw [List.range_succ, List.map_append, List.sum_append,
      Finset.sum_range_succ, ih]
    simp

/-- Claim C3: whenever all pairwise distances are at least `epsilon`,
`compute_accelerations` succeeds and its row `i` equals the sum over all
`j ≠ i` of (the value of) `gravitational_force(positions[i], positions[j],
masses[i], masses[j]) / masses[i]`; in particular, for `N = 1` the result is
the zero vector. -/
theorem compute_accelerations_pairwise_sum (positions : List (ℝ × ℝ))
    (masses : List ℝ) (Gp : ℝ) (hN : 1 ≤ positions.length)
    (hsep : ∀ i j, i < positions.length → j < positions.length → i ≠ j →
      epsilon ≤ norm2 (positions.getD j 0 - positions.getD i 0)) :
    compute_accelerations positions masses Gp =
      .ok ((List.range positions.length).map fun i =>
        ∑ j in (Finset.range positions.length).erase i,
          acc_term positions masses i j) ∧
    (positions.length = 1 →
      compute_accelerations positions masses Gp = .ok [((0 : ℝ), (0 : ℝ))]) := by
  have main : compute_accelerations positions masses Gp =
      .ok ((List.range positions.length).map fun i =>
        ∑ j in (Finset.range positions.length).erase i,
          acc_term positions masses i j) := by
    unfold compute_accelerations
    apply mapM_ok_of_forall
    intro i hi
    rw [acc_row_foldlM positions masses i (List.range positions.length)
      ((0 : ℝ), (0 : ℝ))
      (fun j hj hjne => hsep i j (List.mem_range.mp hi) (List.mem_range.mp hj)
        (fun hij => hjne (hij ▸ rfl)))]
    rw [zero_pair, zero_add, sum_map_range]
    congr 1
    rw [← Finset.sum_erase (Finset.range positions.length)
      (by simp : (if i = i then (0 : ℝ × ℝ)
        else acc_term positions masses i i) = 0)]
    apply Finset.sum_congr rfl
    intro j hj
    rw [if_neg (Finset.ne_of_mem_erase hj)]
  refine ⟨main, fun h1 => ?_⟩
  rw [main, h1]
  rw [show List.range 1 = [0] from rfl]
  simp [Finset.erase_singleton]

/-- Witness for C3: two unit masses at `(0,0)` and `(1,0)`. -/
theorem compute_accelerations_pairwise_sum_witness :
    1 ≤ ([((0 : ℝ), (0 : ℝ)), ((1 : ℝ), (0 : ℝ))] : List (ℝ × ℝ)).length ∧
    compute_accelerations [((0 : ℝ), (0 : ℝ)), ((1 : ℝ), (0 : ℝ))]
        [(1 : ℝ), (1 : ℝ)] G =
      .ok ((List.range
            ([((0 : ℝ), (0 : ℝ)), ((1 : ℝ), (0 : ℝ))] : List (ℝ × ℝ)).length).map
          fun i =>
        ∑ j in (Finset.range
            ([((0 : ℝ), (0 : ℝ)), ((1 : ℝ), (0 : ℝ))] : List (ℝ × ℝ)).length).erase i,
          acc_term [((0 : ℝ), (0 : ℝ)), ((1 : ℝ), (0 : ℝ))] [(1 : ℝ), (1 : ℝ)] i j) := by
  have he : epsilon ≤ 1 := by
    unfold epsilon
    norm_num
  have hsep : ∀ i j, i < ([((0 : ℝ), (0 : ℝ)), ((1 : ℝ), (0 : ℝ))] :
        List (ℝ × ℝ)).length →
      j < ([((0 : ℝ), (0 : ℝ)), ((1 : ℝ), (0 : ℝ))] : List (ℝ × ℝ)).length →
      i ≠ j →
      epsilon ≤ norm2
        (List.getD [((0 : ℝ), (0 : ℝ)), ((1 : ℝ), (0 : ℝ))] j 0 -
         List.getD [((0 : ℝ), (0 : ℝ)), ((1 : ℝ), (0 : ℝ))] i 0) := by
    intro i j hi hj hne
    have hi2 : i < 2 := hi
    have hj2 : j < 2 := hj
    interval_cases i <;> interval_cases j
    · exact absurd rfl hne
    · rw [show List.getD [((0 : ℝ), (0 : ℝ)), ((1 : ℝ), (0 : ℝ))] 1 0 -
          List.getD [((0 : ℝ), (0 : ℝ)), ((1 : ℝ), (0 : ℝ))] 0 0 =
          ((1 : ℝ), (0 : ℝ)) - ((0 : ℝ), (0 : ℝ)) from rfl, norm2_unit]
      exact he
    · rw [show List.getD [((0 : ℝ), (0 : ℝ)), ((1 : ℝ), (0 : ℝ))] 0 0 -
          List.getD [((0 : ℝ), (0 : ℝ)), ((1 : ℝ), (0 : ℝ))] 1 0 =
          ((0 : ℝ), (0 : ℝ)) - ((1 : ℝ), (0 : ℝ)) from rfl, norm2_sub_comm,
        norm2_unit]
      exact he
    · exact absurd rfl hne
  exact ⟨by norm_num,
    (compute_accelerations_pairwise_sum _ _ G (by norm_num) hsep).1⟩

/-! ### Machinery for the integrator claims -/

theorem getD_zipWith {α β γ : Type} (f : α → β → γ) (l1 : List α)
    (l2 : List β) (i : ℕ) (d1 : α) (d2 : β) (d : γ)
    (h1 : i < l1.length) (h2 : i < l2.length) :
    (List.zipWith f l1 l2).getD i d = f (l1.getD i d1) (l2.getD i d2) := by
  have hz : i < (List.zipWith f l1 l2).length := by
    rw [List.length_zipWith]
    omega
  rw [List.getD_eq_getElem _ _ hz, List.getD_eq_getElem _ _ h1,
    List.getD_eq_getElem _ _ h2]
  exact List.getElem_zipWith

/-- Claim C4: `euler_step` returns `new_velocities = velocities + acc·dt`
and `new_positions = positions + new_velocities·dt`, where the position
update uses the already-updated velocity (semi-implicit Euler). -/
theorem euler_step_semi_implicit (positions velocities : List (ℝ × ℝ))
    (masses : List ℝ) (acc : List (ℝ × ℝ)) (dt Gp : ℝ) (i : ℕ)
    (hacc : compute_accelerations positions masses Gp = .ok acc)
    (hvl : velocities.length = positions.length)
    (hal : acc.length = positions.length)
    (hi : i < positions.length) :
    ∃ out, euler_step positions velocities masses dt Gp = .ok out ∧
      out.1.length = positions.length ∧
      out.2.length = positions.length ∧
      out.2.getD i 0 = vadd (velocities.getD i 0) (vmuls (acc.getD i 0) dt) ∧
      out.1.getD i 0 =
        vadd (positions.getD i 0)
          (vmuls (vadd (velocities.getD i 0) (vmuls (acc.getD i 0) dt)) dt) := by
  have hlv : (List.zipWith (fun v a => vadd v (vmuls a dt)) velocities acc).length
      = positions.length := by
    rw [List.length_zipWith, hvl, hal, min_self]
  refine ⟨(List.zipWith (fun x v => vadd x (vmuls v dt)) positions
      (List.zipWith (fun v a => vadd v (vmuls a dt)) velocities acc),
    List.zipWith (fun v a => vadd v (vmuls a dt)) velocities acc), ?_, ?_, ?_, ?_, ?_⟩
  · unfold euler_step
    rw [hacc]
    rfl
  · rw [List.length_zipWith, hlv, min_self]
  · exact hlv
  · exact getD_zipWith _ _ _ _ 0 0 0 (by omega) (by omega)
  · rw [getD_zipWith _ _ _ _ 0 0 0 hi (by omega),
      getD_zipWith _ _ _ _ 0 0 0 (by omega) (by omega)]

/-- Witness for C4: a single body with nonzero velocity, `dt = 1`. -/
theorem euler_step_semi_implicit_witness :
    ∃ out, euler_step [((0 : ℝ), (0 : ℝ))] [((2 : ℝ), (3 : ℝ))] [(5 : ℝ)] 1 0 =
        .ok out ∧
      out.1.length = ([((0 : ℝ), (0 : ℝ))] : List (ℝ × ℝ)).length ∧
      out.2.length = ([((0 : ℝ), (0 : ℝ))] : List (ℝ × ℝ)).length ∧
      out.2.getD 0 0 =
        vadd (List.getD [((2 : ℝ), (3 : ℝ))] 0 0)
          (vmuls (List.getD [((0 : ℝ), (0 : ℝ))] 0 0) 1) ∧
      out.1.getD 0 0 =
        vadd (List.getD [((0 : ℝ), (0 : ℝ))] 0 0)
          (vmuls (vadd (List.getD [((2 : ℝ), (3 : ℝ))] 0 0)
            (vmuls (List.getD [((0 : ℝ), (0 : ℝ))] 0 0) 1)) 1) :=
  euler_step_semi_implicit [((0 : ℝ), (0 : ℝ))] [((2 : ℝ), (3 : ℝ))] [(5 : ℝ)]
    [((0 : ℝ), (0 : ℝ))] 1 0 0 rfl rfl rfl (by norm_num)

theorem force_value_antisymm (p0 p1 : ℝ × ℝ) (m : ℝ) :
    force_value p1 p0 m m = -force_value p0 p1 m m := by
  unfold force_value vdivs smulv
  rw [norm2_sub_comm p0 p1, show p0 - p1 = -(p1 - p0) from (neg_sub p1 p0).symm]
  simp only [Prod.fst_neg, Prod.snd_neg, Prod.neg_mk, Prod.mk.injEq]
  constructor <;> ring

/-- Claim C10: for a two-body system with equal masses at distance at least
`epsilon`, `compute_accelerations` returns exactly opposite acceleration
vectors: `acc[0] = -acc[1]`, an exact equality. -/
theorem compute_accelerations_two_body_antisymmetric (p0 p1 : ℝ × ℝ)
    (m Gp : ℝ) (hd : epsilon ≤ norm2 (p1 - p0)) :
    ∃ a0 a1, compute_accelerations [p0, p1] [m, m] Gp = .ok [a0, a1] ∧
      a0 = -a1 := by
  have hd2 : epsilon ≤ norm2 (p0 - p1) := by
    rw [norm2_sub_comm]
    exact hd
  have hrow : ∀ i ∈ List.range (List.length [p0, p1]),
      (List.range (List.length [p0, p1])).foldlM
        (acc_body [p0, p1] [m, m] i) ((0 : ℝ), (0 : ℝ)) =
      .ok (((0 : ℝ), (0 : ℝ)) + ((List.range (List.length [p0, p1])).map
        fun j => if j = i then 0 else acc_term [p0, p1] [m, m] i j).sum) := by
    intro i hi
    apply acc_row_foldlM
    intro j hj hne
    have hi2 : i < 2 := List.mem_range.mp hi
    have hj2 : j < 2 := List.mem_range.mp hj
    interval_cases i <;> interval_cases j
    · exact absurd rfl hne
    · exact hd
    · exact hd2
    · exact absurd rfl hne
  have hmain := mapM_ok_of_forall _ _ _ hrow
  have hconv : ((List.range (List.length [p0, p1])).map fun i =>
      ((0 : ℝ), (0 : ℝ)) + ((List.range (List.length [p0, p1])).map
        fun j => if j = i then 0 else acc_term [p0, p1] [m, m] i j).sum) =
      [acc_term [p0, p1] [m, m] 0 1, acc_term [p0, p1] [m, m] 1 0] := by
    rw [show List.range (List.length [p0, p1]) = [0, 1] from rfl]
    simp [zero_pair]
  refine ⟨acc_term [p0, p1] [m, m] 0 1, acc_term [p0, p1] [m, m] 1 0, ?_, ?_⟩
  · unfold compute_accelerations
    rw [hmain, hconv]
  · show vdivs (force_value p0 p1 m m) m = -vdivs (force_value p1 p0 m m) m
    rw [force_value_antisymm]
    unfold vdivs
    simp only [Prod.fst_neg, Prod.snd_neg, Prod.neg_mk, Prod.mk.injEq]
    constructor <;> ring

/-- Witness for C10: unit masses at `(0,0)` and `(1,0)`. -/
theorem compute_accelerations_two_body_antisymmetric_witness :
    epsilon ≤ norm2 (((1 : ℝ), (0 : ℝ)) - ((0 : ℝ), (0 : ℝ))) ∧
    ∃ a0 a1, compute_accelerations [((0 : ℝ), (0 : ℝ)), ((1 : ℝ), (0 : ℝ))]
        [(1 : ℝ), (1 : ℝ)] G = .ok [a0, a1] ∧ a0 = -a1 := by
  have hd : epsilon ≤ norm2 (((1 : ℝ), (0 : ℝ)) - ((0 : ℝ), (0 : ℝ))) := by
    rw [norm2_unit]
    unfold epsilon
    norm_num
  exact ⟨hd, compute_accelerations_two_body_antisymmetric
    ((0 : ℝ), (0 : ℝ)) ((1 : ℝ), (0 : ℝ)) 1 G hd⟩

/-! ### Machinery for the simulation-driver claims -/

theorem except_bind_ok {α β : Type} (a : α) (f : α → Except SimError β) :
    (Except.ok a : Except SimError α).bind f = f a := rfl

theorem except_bind_error {α β : Type} (e : SimError)
    (f : α → Except SimError β) :
    (Except.error e : Except SimError α).bind f = .error e := rfl

theorem getD_set_ne {α : Type} (l : List α) (n r : ℕ) (a d : α) (h : r ≠ n) :
    (l.set n a).getD r d = l.getD r d := by
  rw [List.getD_eq_getElem?_getD, List.getD_eq_getElem?_getD,
    List.getElem?_set_ne (Ne.symm h)]

theorem getD_set_self {α : Type} (l : List α) (n : ℕ) (a d : α)
    (h : n < l.length) : (l.set n a).getD n d = a := by
  rw [List.getD_eq_getElem?_getD, List.getElem?_set_self h]
  rfl

theorem getD_replicate {α : Type} (n i : ℕ) (a d : α) (h : i < n) :
    (List.replicate n a).getD i d = a := by
  rw [List.getD_eq_getElem _ _ (by rw [List.length_replicate]; exact h)]
  exact List.getElem_replicate _ _

theorem init_positions_length (n : ℕ) :
    (init_positions n).length = min n 9 := by
  have h9 : PLANETS.length = 9 := rfl
  unfold init_positions get_planets
  simp only [List.length_map, List.length_take, h9]
  omega

theorem record_row_ok_of_le (row : ℕ) (ps : List (ℝ × ℝ)) :
    ∀ (n : ℕ) (traj : List (List (ℝ × ℝ))), n ≤ ps.length →
      ∃ t2, record_row traj row ps n = .ok t2 := by
  intro n
  induction n with
  | zero => exact fun traj _ => ⟨traj, rfl⟩
  | succ m ih =>
    intro traj hn
    obtain ⟨t1, h1⟩ := ih traj (Nat.le_of_succ_le hn)
    rw [record_row, h1, except_bind_ok, List.get?_eq_getElem?,
      List.getElem?_eq_getElem (by omega)]
    exact ⟨_, rfl⟩

theorem record_row_error_of_short (row : ℕ) (ps : List (ℝ × ℝ)) :
    ∀ (n : ℕ) (traj : List (List (ℝ × ℝ))), ps.length < n →
      record_row traj row ps n = .error .indexError := by
  intro n
  induction n with
  | zero => exact fun traj h => absurd h (Nat.not_lt_zero _)
  | succ m ih =>
    intro traj h
    by_cases hm : ps.length < m
    · rw [record_row, ih traj hm, except_bind_error]
    · obtain ⟨t1, h1⟩ := record_row_ok_of_le row ps m traj (by omega)
      rw [record_row, h1, except_bind_ok, List.get?_eq_getElem?,
        List.getElem?_eq_none (by omega)]

theorem record_row_ok_spec (row : ℕ) (ps : List (ℝ × ℝ)) :
    ∀ (n : ℕ) (traj traj2 : List (List (ℝ × ℝ))),
      record_row traj row ps n = .ok traj2 →
      n ≤ ps.length ∧
      traj2.length = traj.length ∧
      (∀ i, n ≤ i → traj2.getD i [] = traj.getD i []) ∧
      (∀ i, i < n →
        traj2.getD i [] = (traj.getD i []).set row (ps.getD i 0)) := by
  intro n
  induction n with
  | zero =>
    intro traj traj2 h
    have h2 : traj = traj2 := by
      have h3 : (Except.ok traj : Except SimError _) = .ok traj2 := h
      injection h3
    subst h2
    exact ⟨Nat.zero_le _, rfl, fun i _ => rfl,
      fun i hi => absurd hi (Nat.not_lt_zero i)⟩
  | succ m ih =>
    intro traj traj2 h
    rw [record_row] at h
    cases hpre : record_row traj row ps m with
    | error e =>
      rw [hpre, except_bind_error] at h
      simp at h
    | ok t1 =>
      rw [hpre, except_bind_ok] at h
      obtain ⟨hle, hlen, hge, hlt⟩ := ih traj t1 hpre
      cases hget : ps.get? m with
      | none =>
        rw [hget] at h
        simp at h
      | some p =>
        rw [hget] at h
        have hpm : m < ps.length := by
          by_contra hc
          rw [List.get?_eq_getElem?, List.getElem?_eq_none (by omega)] at hget
          simp at hget
        have hpval : p = ps.getD m 0 := by
          rw [List.getD_eq_getElem?_getD, ← List.get?_eq_getElem?, hget]
          rfl
        have htraj2 : t1.set m ((t1.getD m []).set row p) = traj2 := by
          injection h
        refine ⟨by omega, ?_, ?_, ?_⟩
        · rw [← htraj2, List.length_set, hlen]
        · intro i hi
          rw [← htraj2, getD_set_ne _ _ _ _ _ (by omega)]
          exact hge i (by omega)
        · intro i hi
          rcases Nat.lt_succ_iff_lt_or_eq.mp hi with hlt2 | heq
          · rw [← htraj2, getD_set_ne _ _ _ _ _ (by omega)]
            exact hlt i hlt2
          · subst heq
            by_cases hb : i < t1.length
            · rw [← htraj2, getD_set_self _ _ _ _ hb, hge i (le_refl i), hpval]
            · rw [← htraj2,
                List.getD_eq_default _ _ (by rw [List.length_set]; omega),
                List.getD_eq_default _ _ (by rw [← hlen]; omega)]
              rw [List.set_nil]

theorem sim_loop_spec
    (sf : List (ℝ × ℝ) → List (ℝ × ℝ) → List ℝ → ℝ → ℝ →
      Except SimError (List (ℝ × ℝ) × List (ℝ × ℝ)))
    (masses : List ℝ) (dt Gp : ℝ) (nplanets : ℕ) (icog : Bool) :
    ∀ (k step : ℕ) (positions velocities : List (ℝ × ℝ))
      (traj trajF : List (List (ℝ × ℝ))) (cog cogF : List (ℝ × ℝ))
      (stF : List (ℝ × ℝ) × List (ℝ × ℝ)),
      traj.length = nplanets →
      (∀ i, i < nplanets → step + k ≤ (traj.getD i []).length) →
      (icog = true → step + k ≤ cog.length) →
      sim_loop sf masses dt Gp nplanets icog k step positions velocities traj
        cog = .ok (trajF, cogF, stF) →
      trajF.length = traj.length ∧
      (∀ i, (trajF.getD i []).length = (traj.getD i []).length) ∧
      (∀ i r, r < step →
        (trajF.getD i []).getD r 0 = (traj.getD i []).getD r 0) ∧
      cogF.length = cog.length ∧
      (∀ r, r < step → cogF.getD r 0 = cog.getD r 0) ∧
      (∀ j, j < k → ∃ st,
        iterate_step sf masses dt Gp (j + 1) positions velocities = .ok st ∧
        (∀ i, i < nplanets →
          (trajF.getD i []).getD (step + j) 0 = st.1.getD i 0) ∧
        (icog = true →
          cogF.getD (step + j) 0 = center_of_gravity masses st.1)) := by
  intro k
  induction k with
  | zero =>
    intro step p v traj trajF cog cogF stF htl hrl hcl h
    rw [sim_loop] at h
    have h2 : traj = trajF ∧ cog = cogF := by
      have h3 : (Except.ok (traj, cog, (p, v)) :
          Except SimError _) = .ok (trajF, cogF, stF) := h
      injection h3 with h4
      exact ⟨congrArg Prod.fst h4, congrArg Prod.fst (congrArg Prod.snd h4)⟩
    obtain ⟨ht, hc⟩ := h2
    subst ht
    subst hc
    exact ⟨rfl, fun i => rfl, fun i r _ => rfl, rfl, fun r _ => rfl,
      fun j hj => absurd hj (Nat.not_lt_zero j)⟩
  | succ kk ih =>
    intro step p v traj trajF cog cogF stF htl hrl hcl h
    rw [sim_loop] at h
    cases hsf : sf p v masses dt Gp with
    | error e =>
      rw [hsf, except_bind_error] at h
      simp at h
    | ok st =>
      rw [hsf, except_bind_ok] at h
      cases hrec : record_row traj step st.1 nplanets with
      | error e =>
        rw [hrec, except_bind_error] at h
        simp at h
      | ok traj2 =>
        rw [hrec, except_bind_ok] at h
        obtain ⟨hps, hlen2, hge2, hset2⟩ :=
          record_row_ok_spec step st.1 nplanets traj traj2 hrec
        have htl2 : traj2.length = nplanets := by rw [hlen2, htl]
        have hrowlen : ∀ i,
            (traj2.getD i []).length = (traj.getD i []).length := by
          intro i
          by_cases hin : i < nplanets
          · rw [hset2 i hin, List.length_set]
          · rw [hge2 i (by omega)]
        have hrl2 : ∀ i, i < nplanets →
            (step + 1) + kk ≤ (traj2.getD i []).length := by
          intro i hi
          rw [hrowlen i]
          have := hrl i hi
          omega
        have hcl2 : icog = true → (step + 1) + kk ≤
            (if icog = true then cog.set step (center_of_gravity masses st.1)
             else cog).length := by
          intro hic
          rw [if_pos hic, List.length_set]
          have := hcl hic
          omega
        rw [show (if icog = true then
            cog.set step (center_of_gravity masses st.1) else cog) =
          (if icog = true then cog.set step (center_of_gravity masses st.1)
           else cog) from rfl] at h
        obtain ⟨hF1, hF2, hF3, hF4, hF5, hF6⟩ :=
          ih (step + 1) st.1 st.2 traj2 trajF
            (if icog = true then cog.set step (center_of_gravity masses st.1)
             else cog) cogF stF htl2 hrl2 hcl2 h
        have hcog2len : (if icog = true then
            cog.set step (center_of_gravity masses st.1) else cog).length =
            cog.length := by
          by_cases hic : icog = true
          · rw [if_pos hic, List.length_set]
          · rw [if_neg hic]
        refine ⟨?_, ?_, ?_, ?_, ?_, ?_⟩
        · rw [hF1, hlen2]
        · intro i
          rw [hF2 i, hrowlen i]
        · intro i r hr
          rw [hF3 i r (by omega)]
          by_cases hin : i < nplanets
          · rw [hset2 i hin, getD_set_ne _ _ _ _ _ (by omega)]
          · rw [hge2 i (by omega)]
        · rw [hF4, hcog2len]
        · intro r hr
          rw [hF5 r (by omega)]
          by_cases hic : icog = true
          · rw [if_pos hic, getD_set_ne _ _ _ _ _ (by omega)]
          · rw [if_neg hic]
        · intro j hj
          cases j with
          | zero =>
            refine ⟨st, ?_, ?_, ?_⟩
            · rw [iterate_step, hsf, except_bind_ok]
              rfl
            · intro i hi
              rw [show step + 0 = step from rfl, hF3 i step (by omega),
                hset2 i hi,
                getD_set_self _ _ _ _ (by have := hrl i hi; omega)]
            · intro hic
              rw [show step + 0 = step from rfl, hF5 step (by omega),
                if_pos hic,
                getD_set_self _ _ _ _ (by have := hcl hic; omega)]
          | succ jj =>
            obtain ⟨st2, hst2, hrow2, hcog3⟩ := hF6 jj (by omega)
            refine ⟨st2, ?_, ?_, ?_⟩
            · rw [iterate_step, hsf, except_bind_ok]
              exact hst2
            · intro i hi
              rw [show step + (jj + 1) = (step + 1) + jj from by omega]
              exact hrow2 i hi
            · intro hic
              rw [show step + (jj + 1) = (step + 1) + jj from by omega]
              exact hcog3 hic

/-- Claim C8: calling `run_simulation` with more planets than the 9-entry
catalog does not proceed on the truncated body set: recording the initial
state at step 0 reads `positions[i]` past the end of the 9-element array and
fails with an index error, before the method is validated and before any
integration step runs (the result is the index error for every `method`,
`dt`, `steps`, and `include_cog`). -/
theorem run_simulation_overflow_index_error (nplanets steps : ℕ) (dt : ℝ)
    (method : String) (include_cog : Bool) (h : 9 < nplanets) :
    run_simulation nplanets steps dt method include_cog =
      .error .indexError := by
  have hlen : (init_positions nplanets).length < nplanets := by
    rw [init_positions_length]
    omega
  unfold run_simulation
  rw [record_row_error_of_short 0 (init_positions nplanets) nplanets _ hlen,
    except_bind_error]

/-- Witness for C8 at `nplanets = 10`. -/
theorem run_simulation_overflow_index_error_witness :
    run_simulation 10 0 0 "rk4" false = .error .indexError :=
  run_simulation_overflow_index_error 10 0 0 "rk4" false (by norm_num)

/-- Claim C6: a successful `run_simulation` produces one `(steps+1)`-row
trajectory buffer per body, with row 0 holding the initial positions and row
`s` the positions after the `s`-th application of the selected integrator to
the evolving state; with `include_cog` enabled the centroid buffer has
`steps+1` entries, entry 0 being the mass-weighted centroid
`(Σ mᵢ rᵢ)/Σ mᵢ` of the initial positions and entry `s` that of the step-`s`
positions. -/
theorem run_simulation_trajectory_record (nplanets steps : ℕ) (dt : ℝ)
    (method : String) (include_cog : Bool)
    (sf : List (ℝ × ℝ) → List (ℝ × ℝ) → List ℝ → ℝ → ℝ →
      Except SimError (List (ℝ × ℝ) × List (ℝ × ℝ)))
    (trajF : List (List (ℝ × ℝ))) (cogF : Option (List (ℝ × ℝ)))
    (hm : (method = "euler" ∧ sf = euler_step) ∨
          (method = "rk4" ∧ sf = rk4_step))
    (hrun : run_simulation nplanets steps dt method include_cog =
      .ok (trajF, cogF)) :
    trajF.length = nplanets ∧
    (∀ tb ∈ trajF, tb.length = steps + 1) ∧
    (∀ i, i < nplanets →
      (trajF.getD i []).getD 0 0 = (init_positions nplanets).getD i 0) ∧
    (∀ s, 1 ≤ s → s ≤ steps → ∃ st,
      iterate_step sf (init_masses nplanets) dt G s (init_positions nplanets)
        (init_velocities nplanets) = .ok st ∧
      ∀ i, i < nplanets → (trajF.getD i []).getD s 0 = st.1.getD i 0) ∧
    (include_cog = true → ∃ cogL, cogF = some cogL ∧
      cogL.length = steps + 1 ∧
      cogL.getD 0 0 =
        center_of_gravity (init_masses nplanets) (init_positions nplanets) ∧
      ∀ s, 1 ≤ s → s ≤ steps → ∃ st,
        iterate_step sf (init_masses nplanets) dt G s
          (init_positions nplanets) (init_velocities nplanets) = .ok st ∧
        cogL.getD s 0 = center_of_gravity (init_masses nplanets) st.1) := by
  unfold run_simulation at hrun
  cases hrec : record_row
      (List.replicate nplanets (List.replicate (steps + 1) ((0 : ℝ), (0 : ℝ))))
      0 (init_positions nplanets) nplanets with
  | error e =>
    rw [hrec, except_bind_error] at hrun
    simp at hrun
  | ok traj1 =>
    rw [hrec, except_bind_ok] at hrun
    have hsel : (if method = "euler" then Except.ok euler_step
        else if method = "rk4" then Except.ok rk4_step
        else Except.error SimError.unknownMethod) = Except.ok sf := by
      rcases hm with ⟨hme, hsf⟩ | ⟨hmr, hsf⟩
      · rw [hme, if_pos rfl, hsf]
      · rw [hmr, if_neg (by decide), if_pos rfl, hsf]
    rw [hsel, except_bind_ok] at hrun
    set cog0 := (if include_cog then
        (List.replicate (steps + 1) ((0 : ℝ), (0 : ℝ))).set 0
          (center_of_gravity (init_masses nplanets) (init_positions nplanets))
      else []) with hcog0def
    cases hloop : sim_loop sf (init_masses nplanets) dt G nplanets include_cog
        steps 1 (init_positions nplanets) (init_velocities nplanets) traj1
        cog0 with
    | error e =>
      rw [hloop, except_bind_error] at hrun
      simp at hrun
    | ok res =>
      rw [hloop, except_bind_ok] at hrun
      obtain ⟨trajR, cogR, stR⟩ := res
      have h4 : ((trajR, cogR, stR).1,
          if include_cog then some (trajR, cogR, stR).2.1 else none) =
          (trajF, cogF) := by
        injection hrun
      have htrajR : trajR = trajF := congrArg Prod.fst h4
      have hcogF : (if include_cog then some cogR else none) = cogF :=
        congrArg Prod.snd h4
      obtain ⟨hps1, hlen1, hge1, hset1⟩ :=
        record_row_ok_spec 0 (init_positions nplanets) nplanets _ traj1 hrec
      have htl1 : traj1.length = nplanets := by
        rw [hlen1, List.length_replicate]
      have hrowlen1 : ∀ i, i < nplanets →
          (traj1.getD i []).length = steps + 1 := by
        intro i hi
        rw [hset1 i hi, List.length_set, getD_replicate _ _ _ _ hi,
          List.length_replicate]
      have hrow0 : ∀ i, i < nplanets →
          (traj1.getD i []).getD 0 0 = (init_positions nplanets).getD i 0 := by
        intro i hi
        rw [hset1 i hi, getD_set_self _ _ _ _
          (by rw [getD_replicate _ _ _ _ hi, List.length_replicate]; omega)]
      have hcog0len : include_cog = true → cog0.length = steps + 1 := by
        intro hic
        rw [hcog0def, if_pos hic, List.length_set, List.length_replicate]
      have hrl1 : ∀ i, i < nplanets → 1 + steps ≤ (traj1.getD i []).length :=
        fun i hi => by rw [hrowlen1 i hi]; omega
      have hcl1 : include_cog = true → 1 + steps ≤ cog0.length :=
        fun hic => by rw [hcog0len hic]; omega
      obtain ⟨hF1, hF2, hF3, hF4, hF5, hF6⟩ :=
        sim_loop_spec sf (init_masses nplanets) dt G nplanets include_cog
          steps 1 (init_positions nplanets) (init_velocities nplanets)
          traj1 trajR cog0 cogR stR htl1 hrl1 hcl1 hloop
      subst htrajR
      refine ⟨?_, ?_, ?_, ?_, ?_⟩
      · rw [hF1, htl1]
      · intro tb htb
        obtain ⟨i, hi, rfl⟩ := List.mem_iff_getElem.mp htb
        rw [← List.getD_eq_getElem _ [] hi, hF2 i,
          hrowlen1 i (by rw [hF1, htl1] at hi; exact hi)]
      · intro i hi
        rw [hF3 i 0 (by omega), hrow0 i hi]
      · intro s hs1 hs2
        obtain ⟨st, hst, hrow, _⟩ := hF6 (s - 1) (by omega)
        refine ⟨st, ?_, ?_⟩
        · rw [show s = (s - 1) + 1 from by omega]
          exact hst
        · intro i hi
          have h5 := hrow i hi
          rw [show 1 + (s - 1) = s from by omega] at h5
          exact h5
      · intro hic
        refine ⟨cogR, ?_, ?_, ?_, ?_⟩
        · rw [← hcogF, if_pos hic]
        · rw [hF4, hcog0len hic]
        · rw [hF5 0 (by omega), hcog0def, if_pos hic,
            getD_set_self _ _ _ _ (by rw [List.length_replicate]; omega)]
        · intro s hs1 hs2
          obtain ⟨st, hst, _, hcg⟩ := hF6 (s - 1) (by omega)
          refine ⟨st, ?_, ?_⟩
          · rw [show s = (s - 1) + 1 from by omega]
            exact hst
          · have h5 := hcg hic
            rw [show 1 + (s - 1) = s from by omega] at h5
            exact h5

/-- The step-1 position of the single body in the concrete one-body,
one-step Euler run used to witness the driver claim. -/
noncomputable def witness_x1 : ℝ × ℝ :=
  vadd ((0 : ℝ), (0 : ℝ))
    (vmuls (vadd ((0 : ℝ), (0 : ℝ)) (vmuls ((0 : ℝ), (0 : ℝ)) 1)) 1)

/-- The trajectory buffers produced by the concrete one-body, one-step
Euler run. -/
noncomputable def witness_traj : List (List (ℝ × ℝ)) :=
  [[((0 : ℝ), (0 : ℝ)), witness_x1]]

/-- The center-of-gravity buffer produced by the concrete one-body,
one-step Euler run. -/
noncomputable def witness_cog : List (ℝ × ℝ) :=
  [center_of_gravity (init_masses 1) (init_positions 1),
   center_of_gravity (init_masses 1) [witness_x1]]

/-- Witness for C6: one body (the Sun), one Euler step, `dt = 1`, centroid
tracking on. -/
theorem run_simulation_trajectory_record_witness :
    witness_traj.length = 1 ∧
    (∀ tb ∈ witness_traj, tb.length = 1 + 1) ∧
    (∀ i, i < 1 →
      (witness_traj.getD i []).getD 0 0 = (init_positions 1).getD i 0) ∧
    (∀ s, 1 ≤ s → s ≤ 1 → ∃ st,
      iterate_step euler_step (init_masses 1) 1 G s (init_positions 1)
        (init_velocities 1) = .ok st ∧
      ∀ i, i < 1 → (witness_traj.getD i []).getD s 0 = st.1.getD i 0) ∧
    (true = true → ∃ cogL, some witness_cog = some cogL ∧
      cogL.length = 1 + 1 ∧
      cogL.getD 0 0 = center_of_gravity (init_masses 1) (init_positions 1) ∧
      ∀ s, 1 ≤ s → s ≤ 1 → ∃ st,
        iterate_step euler_step (init_masses 1) 1 G s (init_positions 1)
          (init_velocities 1) = .ok st ∧
        cogL.getD s 0 = center_of_gravity (init_masses 1) st.1) :=
  run_simulation_trajectory_record 1 1 1 "euler" true euler_step
    witness_traj (some witness_cog) (Or.inl ⟨rfl, rfl⟩) rfl
